import Mathlib

/-!
# Verification of `adapt-authoring-spoortracking`

Shallow embedding of `lib/SpoorTrackingModule.js` (the repository ships three
historical versions of the class concatenated in that file).  The namespace
`Spoor` embeds the current version (scan-and-increment allocator
`insertTrackingId`, direct-overwrite renumberer `resetCourseTrackingIds`);
the namespace `Legacy` embeds the older version (atomic-counter allocator,
sentinel-style `resetTrackingIds`).

The document store (`content.find` / `content.update` / `db.update`) is an
external collaborator; it is modelled per the spec's store contract (§6):
`find` filters and sorts a list of documents, `update` patches the documents
matched by an `_id` selector, `$inc` is an atomic read-modify-write on one
document.
-/

/-- A JavaScript value as it can appear in a `_trackingId` / `_latestTrackingId`
field: `undefined`, `null`, `NaN`, a (float, idealised as rational) number, or
a string. -/
inductive JSVal : Type where
  | undefined : JSVal
  | null : JSVal
  | nan : JSVal
  | num : ℚ → JSVal
  | str : String → JSVal
deriving DecidableEq, Repr

namespace JSVal

/-- `Number.isInteger(v)`: true exactly for numbers with no fractional part. -/
def isInteger : JSVal → Bool
  | .num q => q.den == 1
  | _ => false

/-- The nullish-coalescing operator `v ?? d`. -/
def coalesce (v d : JSVal) : JSVal :=
  match v with
  | .undefined => d
  | .null => d
  | v => v

/-- JavaScript `v + 1` for the values that can reach it here: numbers add,
strings concatenate, `null` coerces to `0`, `undefined` and `NaN` give `NaN`. -/
def plusOne : JSVal → JSVal
  | .num q => .num (q + 1)
  | .str s => .str (s ++ "1")
  | .null => .num 1
  | .undefined => .nan
  | .nan => .nan

/-- JavaScript `v > -1` (the legacy already-assigned test): numbers compare
numerically, `null` coerces to `0` (so `null > -1` is true), `undefined` and
`NaN` compare false, strings go through `ToNumber` (modelled for the integer
literals that occur by `String.toInt?`, anything unparsable being `NaN`). -/
def gtNegOne : JSVal → Bool
  | .num q => decide ((-1 : ℚ) < q)
  | .null => true
  | .str s => match s.toInt? with
    | some n => decide ((-1 : ℤ) < n)
    | none => false
  | .undefined => false
  | .nan => false

/-- MongoDB's `$inc` by one: an absent (`undefined`) field is created at the
increment, a number is incremented; other types make `$inc` fail and are left
untouched here (no modelled run reaches them). -/
def inc : JSVal → JSVal
  | .undefined => .num 1
  | .num q => .num (q + 1)
  | v => v

/-- BSON type rank used by MongoDB when sorting mixed-type values:
undefined < null < numbers (with `NaN` lowest) < strings. -/
def rank : JSVal → Nat
  | .undefined => 0
  | .null => 1
  | .nan => 2
  | .num _ => 3
  | .str _ => 4

/-- The total preorder MongoDB sorts `_trackingId` values by (ascending). -/
def le : JSVal → JSVal → Bool
  | .num a, .num b => decide (a ≤ b)
  | .str a, .str b => decide (a ≤ b)
  | a, b => a.rank ≤ b.rank

theorem leTrans : ∀ a b c : JSVal, le a b → le b c → le a c := by
  intro a b c hab hbc
  cases a <;> cases b <;> cases c <;>
    simp_all [le, rank] <;>
    first
      | omega
      | exact hab.trans hbc

theorem leTotal : ∀ a b : JSVal, le a b || le b a := by
  intro a b
  cases a <;> cases b <;>
    simp [le, rank] <;>
    first
      | omega
      | exact le_total _ _

end JSVal

/-- A document of the content collection: a content item (course, block,
component, …) with the fields this module touches.  `_trackingId` and
`_latestTrackingId` are `undefined` when the document does not carry them. -/
structure Doc : Type where
  _id : Nat
  _type : String
  _courseId : Nat
  _trackingId : JSVal
  _latestTrackingId : JSVal := .undefined
deriving DecidableEq, Repr

/-- The payload handed to the pre-insert hook: a content item about to be
persisted (it has no `_id` yet). -/
structure BlockData : Type where
  _type : String
  _courseId : Nat
  _trackingId : JSVal := .undefined
deriving DecidableEq, Repr

/-- A store state: the ordered list of documents of the content collection. -/
abbrev Store := List Doc

namespace Spoor

/-- `content.find({ _courseId }, {}, …)`: the course's documents, of every
type (the filter does not constrain `_type`). -/
def courseDocs (st : Store) (c : Nat) : List Doc :=
  st.filter (fun d => d._courseId == c)

/-- `content.find({ _courseId }, {}, { limit: 1, sort: [['_trackingId', -1]] })`
followed by the destructuring `[{ _trackingId } = {}]`: the `_trackingId` of
the first document under the descending sort, `undefined` when the course has
no documents at all. -/
def maxTrackingVal (st : Store) (c : Nat) : JSVal :=
  match ((courseDocs st c).mergeSort
      (fun a b => JSVal.le b._trackingId a._trackingId)).head? with
  | some d => d._trackingId
  | none => .undefined

/-- The value the scan-and-increment allocator writes:
`(_trackingId ?? 0) + 1`. -/
def allocValue (st : Store) (c : Nat) : JSVal :=
  ((maxTrackingVal st c).coalesce (.num 0)).plusOne

/-- `insertTrackingId(data)` of the current version.  Returns the (possibly
mutated) payload and whether the store was queried (`content.find` issued). -/
def insertTrackingId (st : Store) (data : BlockData) : BlockData × Bool :=
  if data._type != "block" || data._trackingId.isInteger then
    (data, false)
  else
    ({ data with _trackingId := allocValue st data._courseId }, true)

/-- `content.find({ _type: 'block', _courseId }, …)`: the course's trackable
blocks, in store order. -/
def trackedBlocks (st : Store) (c : Nat) : List Doc :=
  st.filter (fun d => d._type == "block" && d._courseId == c)

/-- The same query with `sort: [['_trackingId', 1]]`: ascending by current
`_trackingId` (stable merge sort, as the store returns a deterministic
order). -/
def blocksAsc (st : Store) (c : Nat) : List Doc :=
  (trackedBlocks st c).mergeSort (fun a b => JSVal.le a._trackingId b._trackingId)

/-- `content.update({ _id }, { _trackingId: v }, { schemaName: 'block' })`:
patch the matched document's `_trackingId`. -/
def updateOne (st : Store) (i : Nat) (v : JSVal) : Store :=
  st.map fun d => if d._id == i then { d with _trackingId := v } else d

/-- The update calls `blocks.map((b, i) => content.update({ _id: b._id },
{ _trackingId: i + 1 }, …))` issues, starting from index `n`. -/
def resetUpdatesFrom (n : Nat) : List Doc → List (Nat × JSVal)
  | [] => []
  | b :: bs => (b._id, JSVal.num ((n : ℚ) + 1)) :: resetUpdatesFrom (n + 1) bs

/-- A block list with the dense ids `n+1, n+2, …` written into it, preserving
order — the intended outcome of the update batch. -/
def assignFrom (n : Nat) : List Doc → List Doc
  | [] => []
  | b :: bs => { b with _trackingId := JSVal.num ((n : ℚ) + 1) } :: assignFrom (n + 1) bs

/-- An error raised by the external store. -/
inductive StoreErr : Type where
  | findErr : String → StoreErr
  | updateErr : Nat → StoreErr
deriving DecidableEq, Repr

/-- Fault injection for the store collaborator: the listing query may fail,
and the updates for the given `_id`s may fail. -/
structure Faults : Type where
  findFail : Option String := none
  updateFailIds : List Nat := []
deriving DecidableEq, Repr

/-- The fault-free store. -/
def noFaults : Faults := {}

/-- Apply the update batch: failing updates leave the store untouched,
successful ones apply — all are issued (`Promise.all` does not cancel). -/
def applyUps (st : Store) (bad : List Nat) (ups : List (Nat × JSVal)) : Store :=
  ups.foldl (fun s u => if bad.contains u.1 then s else updateOne s u.1 u.2) st

/-- `resetCourseTrackingIds(_courseId)`: list the course's blocks ascending by
`_trackingId`, then update each to `i + 1` under `Promise.all`.  Returns the
outcome (the listing error, or the first failing update's error, or success),
the resulting store, and the log of issued update calls. -/
def resetCourseTrackingIds (st : Store) (f : Faults) (c : Nat) :
    Except StoreErr Unit × Store × List (Nat × JSVal) :=
  match f.findFail with
  | some m => (.error (.findErr m), st, [])
  | none =>
    let ups := resetUpdatesFrom 0 (blocksAsc st c)
    (match ups.find? (fun u => f.updateFailIds.contains u.1) with
     | some u => .error (.updateErr u.1)
     | none => .ok ()
     , applyUps st f.updateFailIds ups, ups)

/-- The renumbering postcondition: the `_trackingId`s of the course's
trackable blocks are exactly `{1, …, N}` for `N` the block count. -/
def denseIds (st : Store) (c : Nat) : Prop :=
  ((trackedBlocks st c).map (·._trackingId)).Perm
    ((List.range (trackedBlocks st c).length).map
      fun i : Nat => JSVal.num ((i : ℚ) + 1))

end Spoor

namespace Legacy

/-- `db.update(collectionName, { _id: courseId }, { $inc: { _latestTrackingId:
1 } })`: atomically increment the course document's counter and return the
updated document's `_latestTrackingId` (the destructured result). -/
def incCounter (st : Store) (c : Nat) : Store × JSVal :=
  let st' := st.map fun d =>
    if d._id == c then { d with _latestTrackingId := d._latestTrackingId.inc } else d
  (st', match st'.find? (fun d => d._id == c) with
        | some d => d._latestTrackingId
        | none => .undefined)

/-- `insertTrackingId(data)` of the legacy version: skip unless the type is
`block` and `data._trackingId > -1` is false; otherwise take the atomically
incremented course counter as the id.  Returns the store, the mutated
in-memory object, and the `(courseId, id)` allocations performed. -/
def insertTrackingId (st : Store) (data : Doc) : Store × Doc × List (Nat × JSVal) :=
  if data._type != "block" || data._trackingId.gtNegOne then
    (st, data, [])
  else
    let r := incCounter st data._courseId
    (r.1, { data with _trackingId := r.2 }, [(data._courseId, r.2)])

/-- `resetTrackingIds` of the legacy version (handler body):
`content.update({ _id: courseId }, { _trackingId: -1 })`, then find the
course's blocks and run `insertTrackingId` on each in turn.  Returns the
store, the mutated in-memory block objects (which are never written back),
and the allocations performed. -/
def resetTrackingIds (st : Store) (c : Nat) : Store × List Doc × List (Nat × JSVal) :=
  let st1 := st.map fun d =>
    if d._id == c then { d with _trackingId := JSVal.num (-1) } else d
  let blocks := st1.filter fun d => d._type == "block" && d._courseId == c
  blocks.foldl (fun acc b =>
      let r := insertTrackingId acc.1 b
      (r.1, acc.2.1 ++ [r.2.1], acc.2.2 ++ r.2.2))
    (st1, [], [])

/-- An externally triggered operation of the legacy module: a pre-insert hook
call, or a reset request. -/
inductive Op : Type where
  | insert : Doc → Op
  | reset : Nat → Op

/-- One module operation: the store it leaves behind and the `(courseId, id)`
allocations it performed. -/
def execOp (st : Store) : Op → Store × List (Nat × JSVal)
  | .insert data => let r := insertTrackingId st data; (r.1, r.2.2)
  | .reset c => let r := resetTrackingIds st c; (r.1, r.2.2)

/-- A run of the legacy module: all operations in order, collecting every
allocation issued. -/
def execTrace (st : Store) (ops : List Op) : Store × List (Nat × JSVal) :=
  ops.foldl (fun acc op => let r := execOp acc.1 op; (r.1, acc.2 ++ r.2)) (st, [])

/-- The course's `_latestTrackingId` counter as stored (`undefined` when the
course document does not exist or does not carry the field). -/
def counterVal (st : Store) (c : Nat) : JSVal :=
  match st.find? (fun d => d._id == c) with
  | some d => d._latestTrackingId
  | none => .undefined

end Legacy

/-! ## Store-contract facts about the scan query -/

theorem JSVal.leRefl : ∀ a : JSVal, JSVal.le a a := by
  intro a
  cases a <;> simp [JSVal.le, JSVal.rank]

/-- The document the descending-sort, limit-1 query returns carries a value
present among the course's `_trackingId`s. -/
theorem Spoor.maxTrackingVal_mem (st : Store) (c : Nat)
    (h : Spoor.courseDocs st c ≠ []) :
    Spoor.maxTrackingVal st c ∈ (Spoor.courseDocs st c).map (·._trackingId) := by
  unfold Spoor.maxTrackingVal
  have hne : (Spoor.courseDocs st c).mergeSort
      (fun a b => JSVal.le b._trackingId a._trackingId) ≠ [] := by
    intro hnil
    exact h (List.eq_nil_of_length_eq_zero
      (by simpa [hnil] using (List.mergeSort_perm (Spoor.courseDocs st c)
        (fun a b => JSVal.le b._trackingId a._trackingId)).length_eq.symm))
  obtain ⟨d0, rest, hl⟩ := List.exists_cons_of_ne_nil hne
  rw [hl]
  simp only [List.head?_cons]
  have hd0 : d0 ∈ (Spoor.courseDocs st c).mergeSort
      (fun a b => JSVal.le b._trackingId a._trackingId) := by
    rw [hl]; exact List.mem_cons_self _ _
  exact List.mem_map_of_mem (·._trackingId) (List.mem_mergeSort.mp hd0)

/-- The value that query returns dominates every `_trackingId` of the
course's documents in the store order. -/
theorem Spoor.maxTrackingVal_ge (st : Store) (c : Nat) :
    ∀ v ∈ (Spoor.courseDocs st c).map (·._trackingId),
      JSVal.le v (Spoor.maxTrackingVal st c) := by
  intro v hv
  obtain ⟨d, hd, rfl⟩ := List.mem_map.mp hv
  have hs := @List.sorted_mergeSort Doc
    (fun a b => JSVal.le b._trackingId a._trackingId)
    (fun a b c hab hbc => JSVal.leTrans _ _ _ hbc hab)
    (fun a b => JSVal.leTotal _ _)
    (Spoor.courseDocs st c)
  have hdm : d ∈ (Spoor.courseDocs st c).mergeSort
      (fun a b => JSVal.le b._trackingId a._trackingId) :=
    List.mem_mergeSort.mpr hd
  unfold Spoor.maxTrackingVal
  obtain ⟨d0, rest, hl⟩ := List.exists_cons_of_ne_nil (List.ne_nil_of_mem hdm)
  rw [hl]
  simp only [List.head?_cons]
  rw [hl] at hdm hs
  rcases List.mem_cons.mp hdm with rfl | hdtl
  · exact JSVal.leRefl _
  · exact (List.pairwise_cons.mp hs).1 d hdtl

/-- Scan-and-increment, maximum present: when some document of the course
carries the maximal `_trackingId` value `q` (a number), the allocated value
is `q + 1`. -/
theorem Spoor.allocValue_of_max (st : Store) (c : Nat) (q : ℚ)
    (hmem : JSVal.num q ∈ (Spoor.courseDocs st c).map (·._trackingId))
    (hmax : ∀ v ∈ (Spoor.courseDocs st c).map (·._trackingId),
      JSVal.le v (JSVal.num q)) :
    Spoor.allocValue st c = JSVal.num (q + 1) := by
  have hne : Spoor.courseDocs st c ≠ [] := by
    intro h; rw [h] at hmem; simp at hmem
  have h1 : JSVal.le (Spoor.maxTrackingVal st c) (JSVal.num q) :=
    hmax _ (Spoor.maxTrackingVal_mem st c hne)
  have h2 : JSVal.le (JSVal.num q) (Spoor.maxTrackingVal st c) :=
    Spoor.maxTrackingVal_ge st c _ hmem
  have hm : Spoor.maxTrackingVal st c = JSVal.num q := by
    cases hv : Spoor.maxTrackingVal st c <;> rw [hv] at h1 h2 <;>
      simp [JSVal.le, JSVal.rank] at h1 h2 ⊢
    exact le_antisymm h1 h2
  unfold Spoor.allocValue
  rw [hm]
  rfl

/-- Scan-and-increment, empty course: when the course has no documents at
all, the allocated value is `1`. -/
theorem Spoor.allocValue_of_empty (st : Store) (c : Nat)
    (h : Spoor.courseDocs st c = []) :
    Spoor.allocValue st c = JSVal.num 1 := by
  unfold Spoor.allocValue Spoor.maxTrackingVal
  rw [h]
  simp [JSVal.coalesce, JSVal.plusOne]

/-- Scan-and-increment, absent maximum: when every `_trackingId` of the
course's documents is `null` or `undefined`, the allocated value is `1`. -/
theorem Spoor.allocValue_of_nullish (st : Store) (c : Nat)
    (h : ∀ v ∈ (Spoor.courseDocs st c).map (·._trackingId),
      v = JSVal.null ∨ v = JSVal.undefined) :
    Spoor.allocValue st c = JSVal.num 1 := by
  by_cases hne : Spoor.courseDocs st c = []
  · exact Spoor.allocValue_of_empty st c hne
  · have hm := h _ (Spoor.maxTrackingVal_mem st c hne)
    unfold Spoor.allocValue
    rcases hm with hm | hm <;> rw [hm] <;>
      simp [JSVal.coalesce, JSVal.plusOne]

/-! ## Renumberer infrastructure -/

theorem Spoor.lookup_eq_none_of_not_mem (k : Nat) (l : List (Nat × JSVal))
    (h : k ∉ l.map Prod.fst) : l.lookup k = none := by
  induction l with
  | nil => rfl
  | cons a tl ih =>
    obtain ⟨k1, v1⟩ := a
    simp only [List.map_cons, List.mem_cons] at h
    push_neg at h
    have hne : (k == k1) = false := by simp [h.1]
    simp [List.lookup, hne, ih h.2]

theorem Spoor.resetUpdatesFrom_keys (n : Nat) (l : List Doc) :
    (Spoor.resetUpdatesFrom n l).map Prod.fst = l.map (·._id) := by
  induction l generalizing n with
  | nil => rfl
  | cons b bs ih => simp [Spoor.resetUpdatesFrom, ih]

theorem Spoor.resetUpdatesFrom_length (n : Nat) (l : List Doc) :
    (Spoor.resetUpdatesFrom n l).length = l.length := by
  have h := congrArg List.length (Spoor.resetUpdatesFrom_keys n l)
  simpa using h

theorem Spoor.assignFrom_length (n : Nat) (l : List Doc) :
    (Spoor.assignFrom n l).length = l.length := by
  induction l generalizing n with
  | nil => rfl
  | cons b bs ih => simp [Spoor.assignFrom, ih]

theorem Spoor.resetUpdatesFrom_lookup_some (n : Nat) (l : List Doc)
    (k : Nat) (v : JSVal)
    (h : (Spoor.resetUpdatesFrom n l).lookup k = some v) :
    ∃ i, ∃ hi : i < l.length, (l.get ⟨i, hi⟩)._id = k
      ∧ v = JSVal.num (((n + i : Nat) : ℚ) + 1) := by
  induction l generalizing n with
  | nil => simp [Spoor.resetUpdatesFrom, List.lookup] at h
  | cons b bs ih =>
    rw [Spoor.resetUpdatesFrom, List.lookup] at h
    cases hk : (k == b._id) with
    | true =>
      rw [hk] at h
      refine ⟨0, by simp, ?_, ?_⟩
      · simpa using (eq_of_beq hk).symm
      · simpa using h.symm
    | false =>
      rw [hk] at h
      obtain ⟨i, hi, hid, hv⟩ := ih (n + 1) h
      refine ⟨i + 1, by simpa using hi, by simpa using hid, ?_⟩
      rw [hv]
      congr 1
      push_cast
      ring

theorem Spoor.resetUpdatesFrom_lookup_get (n : Nat) (l : List Doc)
    (hnd : (l.map (·._id)).Nodup) (i : Nat) (hi : i < l.length) :
    (Spoor.resetUpdatesFrom n l).lookup (l.get ⟨i, hi⟩)._id
      = some (JSVal.num (((n + i : Nat) : ℚ) + 1)) := by
  induction l generalizing n i with
  | nil => exact absurd hi (by simp)
  | cons b bs ih =>
    simp only [List.map_cons, List.nodup_cons] at hnd
    cases i with
    | zero =>
      simp [Spoor.resetUpdatesFrom, List.lookup]
    | succ j =>
      have hj : j < bs.length := by simpa using hi
      have hmem : (bs.get ⟨j, hj⟩)._id ∈ bs.map (·._id) :=
        List.mem_map_of_mem (·._id) (bs.get_mem j hj)
      have hne : ((bs.get ⟨j, hj⟩)._id == b._id) = false := by
        simp only [beq_eq_false_iff_ne, ne_eq]
        intro hcontra
        exact hnd.1 (hcontra ▸ hmem)
      rw [Spoor.resetUpdatesFrom, List.lookup]
      simp only [List.get_cons_succ, hne]
      rw [ih (n + 1) hnd.2 j hj]
      congr 2
      push_cast
      ring

theorem Spoor.assignFrom_get (n : Nat) (l : List Doc) (i : Nat)
    (hi : i < l.length) (hi' : i < (Spoor.assignFrom n l).length) :
    (Spoor.assignFrom n l).get ⟨i, hi'⟩
      = { l.get ⟨i, hi⟩ with _trackingId := JSVal.num (((n + i : Nat) : ℚ) + 1) } := by
  induction l generalizing n i with
  | nil => exact absurd hi (by simp)
  | cons b bs ih =>
    cases i with
    | zero => simp [Spoor.assignFrom]
    | succ j =>
      have hj : j < bs.length := by simpa using hi
      have hj' : j < (Spoor.assignFrom (n + 1) bs).length := by
        rw [Spoor.assignFrom_length]; exact hj
      show (Spoor.assignFrom (n + 1) bs).get ⟨j, hj'⟩ = _
      rw [ih (n + 1) j hj hj']
      simp only [List.get_cons_succ]
      congr 2
      push_cast
      ring

theorem Spoor.map_lookup_eq_assignFrom (l : List Doc)
    (hnd : (l.map (·._id)).Nodup) :
    l.map (fun d => match (Spoor.resetUpdatesFrom 0 l).lookup d._id with
        | some v => { d with _trackingId := v }
        | none => d)
      = Spoor.assignFrom 0 l := by
  apply List.ext_get
  · simp [Spoor.assignFrom_length]
  · intro i h1 h2
    rw [List.get_map, Spoor.assignFrom_get 0 l i (by simpa using h1) h2,
      Spoor.resetUpdatesFrom_lookup_get 0 l hnd i (by simpa using h1)]

theorem Spoor.applyUps_cons (st : Store) (bad : List Nat)
    (u : Nat × JSVal) (tl : List (Nat × JSVal)) :
    Spoor.applyUps st bad (u :: tl)
      = Spoor.applyUps (if bad.contains u.1 then st else Spoor.updateOne st u.1 u.2)
          bad tl := rfl

theorem Spoor.applyUps_ok (st : Store) (ups : List (Nat × JSVal))
    (hk : (ups.map Prod.fst).Nodup) :
    Spoor.applyUps st [] ups
      = st.map (fun d => match ups.lookup d._id with
          | some v => { d with _trackingId := v }
          | none => d) := by
  induction ups generalizing st with
  | nil =>
    show st = _
    simp [List.lookup]
  | cons u tl ih =>
    obtain ⟨k, v⟩ := u
    simp only [List.map_cons, List.nodup_cons] at hk
    rw [Spoor.applyUps_cons]
    simp only [List.contains, List.elem_nil, if_neg Bool.false_ne_true]
    rw [ih _ hk.2]
    show (st.map _).map _ = _
    rw [List.map_map]
    congr 1
    funext d
    by_cases hdk : d._id = k
    · have hb : (d._id == k) = true := by simp [hdk]
      simp only [Function.comp, hb, if_true]
      have h1 : List.lookup (Doc._id { d with _trackingId := v }) tl = none := by
        show List.lookup d._id tl = none
        rw [hdk]
        exact Spoor.lookup_eq_none_of_not_mem k tl hk.1
      have h2 : List.lookup d._id ((k, v) :: tl) = some v := by
        simp [List.lookup, hb]
      rw [h1, h2]
    · have hb : (d._id == k) = false := by simp [hdk]
      have h2 : List.lookup d._id ((k, v) :: tl) = List.lookup d._id tl := by
        simp [List.lookup, hb]
      simp only [Function.comp, hb, Bool.false_eq_true, if_false, h2]

theorem Spoor.filter_map_comm {p : Doc → Bool} {g : Doc → Doc}
    (hg : ∀ d, p (g d) = p d) (l : List Doc) :
    (l.map g).filter p = (l.filter p).map g := by
  induction l with
  | nil => rfl
  | cons b bs ih =>
    simp only [List.map_cons, List.filter_cons, hg b]
    cases hpb : p b <;> simp [ih]

theorem Spoor.blocksAsc_ids_nodup (st : Store) (c : Nat)
    (h : (st.map (·._id)).Nodup) :
    ((Spoor.blocksAsc st c).map (·._id)).Nodup := by
  have h1 : ((Spoor.trackedBlocks st c).map (·._id)).Nodup :=
    h.sublist ((List.filter_sublist st).map (·._id))
  exact (((List.mergeSort_perm (Spoor.trackedBlocks st c)
    (fun a b => JSVal.le a._trackingId b._trackingId)).map (·._id)).nodup_iff).mpr h1

theorem Spoor.reset_noFaults (st : Store) (c : Nat) :
    Spoor.resetCourseTrackingIds st Spoor.noFaults c
      = (Except.ok (),
         Spoor.applyUps st [] (Spoor.resetUpdatesFrom 0 (Spoor.blocksAsc st c)),
         Spoor.resetUpdatesFrom 0 (Spoor.blocksAsc st c)) := by
  have hf : List.find? (fun u => List.contains ([] : List Nat) u.1)
      (Spoor.resetUpdatesFrom 0 (Spoor.blocksAsc st c)) = none :=
    List.find?_eq_none.mpr (fun x _ => by simp)
  show (match List.find? (fun u => List.contains ([] : List Nat) u.1)
        (Spoor.resetUpdatesFrom 0 (Spoor.blocksAsc st c)) with
      | some u => Except.error (Spoor.StoreErr.updateErr u.1)
      | none => Except.ok ()
    , Spoor.applyUps st [] (Spoor.resetUpdatesFrom 0 (Spoor.blocksAsc st c)),
      Spoor.resetUpdatesFrom 0 (Spoor.blocksAsc st c)) = _
  rw [hf]

theorem Spoor.reset_ok_store (st : Store) (c : Nat)
    (h : (st.map (·._id)).Nodup) :
    (Spoor.resetCourseTrackingIds st Spoor.noFaults c).2.1
      = st.map (fun d =>
          match (Spoor.resetUpdatesFrom 0 (Spoor.blocksAsc st c)).lookup d._id with
          | some v => { d with _trackingId := v }
          | none => d) := by
  rw [Spoor.reset_noFaults]
  exact Spoor.applyUps_ok st _
    (by rw [Spoor.resetUpdatesFrom_keys]; exact Spoor.blocksAsc_ids_nodup st c h)

/-- After a fault-free renumbering, the course's trackable blocks are, up to
store order, exactly the previously ascending-sorted blocks with the dense
ids `1, …, N` written in. -/
theorem Spoor.reset_tracked_perm (st : Store) (c : Nat)
    (h : (st.map (·._id)).Nodup) :
    (Spoor.trackedBlocks (Spoor.resetCourseTrackingIds st Spoor.noFaults c).2.1 c).Perm
      (Spoor.assignFrom 0 (Spoor.blocksAsc st c)) := by
  have hnd := Spoor.blocksAsc_ids_nodup st c h
  rw [Spoor.reset_ok_store st c h]
  unfold Spoor.trackedBlocks
  rw [Spoor.filter_map_comm (fun d => ?hg)]
  case hg =>
    cases (Spoor.resetUpdatesFrom 0 (Spoor.blocksAsc st c)).lookup d._id with
    | some v => rfl
    | none => rfl
  rw [← Spoor.map_lookup_eq_assignFrom (Spoor.blocksAsc st c) hnd]
  exact ((List.mergeSort_perm (Spoor.trackedBlocks st c)
    (fun a b => JSVal.le a._trackingId b._trackingId)).symm).map _

theorem Spoor.assignFrom_tids (n : Nat) (l : List Doc) :
    (Spoor.assignFrom n l).map (·._trackingId)
      = (List.range l.length).map
          (fun i => JSVal.num (((n + i : Nat) : ℚ) + 1)) := by
  induction l generalizing n with
  | nil => rfl
  | cons b bs ih =>
    simp only [Spoor.assignFrom, List.map_cons, List.length_cons]
    rw [List.range_succ_eq_map, List.map_cons, List.map_map]
    refine congrArg₂ List.cons ?_ ?_
    · simp
    · rw [ih (n + 1)]
      refine List.map_congr_left (fun i _ => ?_)
      simp only [Function.comp]
      congr 2
      push_cast
      ring

theorem Spoor.assignFrom_zero_tids (l : List Doc) :
    (Spoor.assignFrom 0 l).map (·._trackingId)
      = (List.range l.length).map (fun i : Nat => JSVal.num ((i : ℚ) + 1)) := by
  rw [Spoor.assignFrom_tids]
  exact List.map_congr_left (fun i _ => by norm_num)

theorem Spoor.applyUps_ids (st : Store) (bad : List Nat)
    (ups : List (Nat × JSVal)) :
    (Spoor.applyUps st bad ups).map (·._id) = st.map (·._id) := by
  induction ups generalizing st with
  | nil => rfl
  | cons u tl ih =>
    rw [Spoor.applyUps_cons, ih]
    by_cases hb : bad.contains u.1
    · rw [if_pos hb]
    · rw [if_neg hb]
      show (st.map _).map _ = _
      rw [List.map_map]
      congr 1
      funext d
      by_cases hd : (d._id == u.1) = true
      · simp [Function.comp, hd]
      · simp [Function.comp, hd]

/-- Every variant of the reset (faults included) leaves the documents' `_id`s
untouched, in order. -/
theorem Spoor.reset_ids (st : Store) (f : Spoor.Faults) (c : Nat) :
    ((Spoor.resetCourseTrackingIds st f c).2.1).map (·._id) = st.map (·._id) := by
  rw [Spoor.resetCourseTrackingIds]
  cases hf : f.findFail with
  | some m => rfl
  | none => exact Spoor.applyUps_ids st f.updateFailIds _

/-- A fault-free renumbering establishes the dense-ids postcondition. -/
theorem Spoor.reset_dense (st : Store) (c : Nat)
    (h : (st.map (·._id)).Nodup) :
    Spoor.denseIds (Spoor.resetCourseTrackingIds st Spoor.noFaults c).2.1 c := by
  unfold Spoor.denseIds
  have hperm := Spoor.reset_tracked_perm st c h
  have hlen : (Spoor.trackedBlocks
        (Spoor.resetCourseTrackingIds st Spoor.noFaults c).2.1 c).length
      = (Spoor.blocksAsc st c).length :=
    hperm.length_eq.trans (Spoor.assignFrom_length 0 _)
  rw [hlen, ← Spoor.assignFrom_zero_tids]
  exact hperm.map _

/-! ## Claim C1: renumbering yields exactly 1..N in prior ascending order -/

/-- C1: for a store with distinct `_id`s, a fault-free
`resetCourseTrackingIds` leaves the course's trackable blocks exactly equal
(as a multiset) to the ascending-by-prior-`_trackingId` list with
`1, …, N` written in — whose `_trackingId`s are exactly
`1, …, N` in that order; the ascending list is a permutation of the course's
blocks sorted so ascending order holds pairwise; and for a course with zero
blocks no update call is issued. -/
theorem Spoor.resetCourseTrackingIds_renumbers (st : Store) (c : Nat)
    (h : (st.map (·._id)).Nodup) :
    (Spoor.trackedBlocks (Spoor.resetCourseTrackingIds st Spoor.noFaults c).2.1 c).Perm
        (Spoor.assignFrom 0 (Spoor.blocksAsc st c))
    ∧ (Spoor.assignFrom 0 (Spoor.blocksAsc st c)).map (·._trackingId)
        = (List.range (Spoor.blocksAsc st c).length).map
            (fun i : Nat => JSVal.num ((i : ℚ) + 1))
    ∧ (Spoor.blocksAsc st c).Pairwise
        (fun a b => JSVal.le a._trackingId b._trackingId)
    ∧ (Spoor.blocksAsc st c).Perm (Spoor.trackedBlocks st c)
    ∧ (Spoor.trackedBlocks st c = [] →
        (Spoor.resetCourseTrackingIds st Spoor.noFaults c).2.2 = []) := by
  refine ⟨Spoor.reset_tracked_perm st c h, Spoor.assignFrom_zero_tids _, ?_, ?_, ?_⟩
  · exact @List.sorted_mergeSort Doc
      (fun a b => JSVal.le a._trackingId b._trackingId)
      (fun a b c hab hbc => JSVal.leTrans _ _ _ hab hbc)
      (fun a b => JSVal.leTotal _ _) (Spoor.trackedBlocks st c)
  · exact List.mergeSort_perm (Spoor.trackedBlocks st c) _
  · intro h0
    rw [Spoor.reset_noFaults]
    show Spoor.resetUpdatesFrom 0 (Spoor.blocksAsc st c) = []
    rw [Spoor.blocksAsc, h0, List.mergeSort_nil]
    rfl

/-- Witness for C1: a course with a single block (prior `_trackingId = 99`)
satisfies the hypothesis and the renumbering conclusions. -/
theorem Spoor.resetCourseTrackingIds_renumbers_witness :
    (([⟨2, "block", 7, JSVal.num 99, .undefined⟩] : Store).map (·._id)).Nodup
    ∧ (Spoor.trackedBlocks
          (Spoor.resetCourseTrackingIds [⟨2, "block", 7, JSVal.num 99, .undefined⟩]
            Spoor.noFaults 7).2.1 7).Perm
        (Spoor.assignFrom 0
          (Spoor.blocksAsc [⟨2, "block", 7, JSVal.num 99, .undefined⟩] 7))
    ∧ (Spoor.blocksAsc [⟨2, "block", 7, JSVal.num 99, .undefined⟩] 7).Perm
        (Spoor.trackedBlocks [⟨2, "block", 7, JSVal.num 99, .undefined⟩] 7) :=
  ⟨by decide,
    (Spoor.resetCourseTrackingIds_renumbers
      [⟨2, "block", 7, JSVal.num 99, .undefined⟩] 7 (by decide)).1,
    (Spoor.resetCourseTrackingIds_renumbers
      [⟨2, "block", 7, JSVal.num 99, .undefined⟩] 7 (by decide)).2.2.2.1⟩

/-! ## Claim C8: idempotence given a stable order, and reconvergence -/

/-- C8: on a store whose course blocks already carry `1, …, N` ascending, a
fault-free `resetCourseTrackingIds` leaves the store exactly unchanged while
still issuing one rewrite update per block; and re-running a fault-free reset
after any (possibly partially failed) reset reconverges to the dense
`1, …, N` sequence. -/
theorem Spoor.resetCourseTrackingIds_idempotent
    (st st₂ : Store) (c c₂ : Nat) (f : Spoor.Faults)
    (h : (st.map (·._id)).Nodup) (h₂ : (st₂.map (·._id)).Nodup)
    (H : (Spoor.blocksAsc st c).map (·._trackingId)
      = (List.range (Spoor.blocksAsc st c).length).map
          (fun i : Nat => JSVal.num ((i : ℚ) + 1))) :
    (Spoor.resetCourseTrackingIds st Spoor.noFaults c).2.1 = st
    ∧ (Spoor.resetCourseTrackingIds st Spoor.noFaults c).2.2.length
        = (Spoor.trackedBlocks st c).length
    ∧ Spoor.denseIds
        (Spoor.resetCourseTrackingIds
          (Spoor.resetCourseTrackingIds st₂ f c₂).2.1 Spoor.noFaults c₂).2.1 c₂ := by
  refine ⟨?_, ?_, ?_⟩
  · rw [Spoor.reset_ok_store st c h]
    have hsame : ∀ d ∈ st,
        (match (Spoor.resetUpdatesFrom 0 (Spoor.blocksAsc st c)).lookup d._id with
          | some v => { d with _trackingId := v }
          | none => d) = id d := by
      intro d hd
      cases hl : (Spoor.resetUpdatesFrom 0 (Spoor.blocksAsc st c)).lookup d._id with
      | none => rfl
      | some v =>
        obtain ⟨i, hi, hid, hv⟩ := Spoor.resetUpdatesFrom_lookup_some 0 _ _ _ hl
        have hmem2 : (Spoor.blocksAsc st c).get ⟨i, hi⟩ ∈ st := by
          have h1 : (Spoor.blocksAsc st c).get ⟨i, hi⟩ ∈ Spoor.trackedBlocks st c :=
            List.mem_mergeSort.mp ((Spoor.blocksAsc st c).get_mem i hi)
          exact (List.mem_filter.mp h1).1
        have hde : d = (Spoor.blocksAsc st c).get ⟨i, hi⟩ :=
          List.inj_on_of_nodup_map h hd hmem2 hid.symm
        have hlen1 : i < ((Spoor.blocksAsc st c).map (·._trackingId)).length := by
          simpa using hi
        have h5 := List.getElem_of_eq H hlen1
        simp only [List.getElem_map, List.getElem_range] at h5
        have htid : d._trackingId = JSVal.num ((i : ℚ) + 1) := by
          rw [hde]
          exact h5
        have hveq : v = d._trackingId := by
          rw [htid, hv]
          congr 1
          push_cast
          ring
        rw [hveq]
        rfl
    have hmap : st.map (fun d =>
        match (Spoor.resetUpdatesFrom 0 (Spoor.blocksAsc st c)).lookup d._id with
        | some v => { d with _trackingId := v }
        | none => d) = st.map id := List.map_congr_left hsame
    rw [hmap, List.map_id]
  · rw [Spoor.reset_noFaults]
    show (Spoor.resetUpdatesFrom 0 (Spoor.blocksAsc st c)).length = _
    rw [Spoor.resetUpdatesFrom_length, Spoor.blocksAsc, List.length_mergeSort]
  · have hids : (((Spoor.resetCourseTrackingIds st₂ f c₂).2.1).map (·._id)).Nodup := by
      rw [Spoor.reset_ids]
      exact h₂
    exact Spoor.reset_dense _ c₂ hids

/-- Witness for C8: a course whose single block already carries `1` is left
exactly unchanged with one update issued, and a reset re-run after a reset
whose single update failed reconverges to the dense sequence. -/
theorem Spoor.resetCourseTrackingIds_idempotent_witness :
    (([⟨2, "block", 7, JSVal.num 1, .undefined⟩] : Store).map (·._id)).Nodup
    ∧ (Spoor.resetCourseTrackingIds [⟨2, "block", 7, JSVal.num 1, .undefined⟩]
        Spoor.noFaults 7).2.1 = [⟨2, "block", 7, JSVal.num 1, .undefined⟩]
    ∧ Spoor.denseIds
        (Spoor.resetCourseTrackingIds
          (Spoor.resetCourseTrackingIds [⟨2, "block", 7, JSVal.num 1, .undefined⟩]
            ⟨none, [2]⟩ 7).2.1 Spoor.noFaults 7).2.1 7 := by
  have hnd : (([⟨2, "block", 7, JSVal.num 1, .undefined⟩] : Store).map (·._id)).Nodup :=
    by decide
  have hH : (Spoor.blocksAsc [⟨2, "block", 7, JSVal.num 1, .undefined⟩] 7).map
        (·._trackingId)
      = (List.range (Spoor.blocksAsc [⟨2, "block", 7, JSVal.num 1, .undefined⟩]
          7).length).map (fun i : Nat => JSVal.num ((i : ℚ) + 1)) := by
    have hb : Spoor.blocksAsc [⟨2, "block", 7, JSVal.num 1, .undefined⟩] 7
        = [⟨2, "block", 7, JSVal.num 1, .undefined⟩] := by
      show ((([⟨2, "block", 7, JSVal.num 1, .undefined⟩] : Store).filter _).mergeSort _) = _
      rw [show (([⟨2, "block", 7, JSVal.num 1, .undefined⟩] : Store).filter
        (fun d => d._type == "block" && d._courseId == 7))
          = [⟨2, "block", 7, JSVal.num 1, .undefined⟩] from rfl]
      exact List.mergeSort_singleton _
    rw [hb]
    simp [List.range_succ]
  exact ⟨hnd,
    (Spoor.resetCourseTrackingIds_idempotent _ _ 7 7 ⟨none, [2]⟩ hnd hnd hH).1,
    (Spoor.resetCourseTrackingIds_idempotent _ _ 7 7 ⟨none, [2]⟩ hnd hnd hH).2.2⟩

/-! ## Claim C6: error propagation of the reset -/

/-- C6: if the block-listing query fails, the whole reset fails with that
same error, the store is unchanged and no update call is issued; if an
issued update's target is set to fail, the reset's outcome is an update
error naming such a failed target. -/
theorem Spoor.resetCourseTrackingIds_error_prop
    (st : Store) (f : Spoor.Faults) (c : Nat) :
    (∀ m, f.findFail = some m →
      Spoor.resetCourseTrackingIds st f c
        = (Except.error (Spoor.StoreErr.findErr m), st, []))
    ∧ (f.findFail = none →
        ∀ u ∈ (Spoor.resetCourseTrackingIds st f c).2.2,
          f.updateFailIds.contains u.1 →
          ∃ i, f.updateFailIds.contains i
            ∧ (∃ v, (i, v) ∈ (Spoor.resetCourseTrackingIds st f c).2.2)
            ∧ (Spoor.resetCourseTrackingIds st f c).1
                = Except.error (Spoor.StoreErr.updateErr i)) := by
  constructor
  · intro m hm
    rw [Spoor.resetCourseTrackingIds, hm]
  · intro hn u hu hbad
    rw [Spoor.resetCourseTrackingIds, hn] at hu ⊢
    have hlog : ((match (Spoor.resetUpdatesFrom 0 (Spoor.blocksAsc st c)).find?
          (fun u => f.updateFailIds.contains u.1) with
        | some u => Except.error (Spoor.StoreErr.updateErr u.1)
        | none => Except.ok ()
      , Spoor.applyUps st f.updateFailIds
          (Spoor.resetUpdatesFrom 0 (Spoor.blocksAsc st c)),
        Spoor.resetUpdatesFrom 0 (Spoor.blocksAsc st c)) :
          Except Spoor.StoreErr Unit × Store × List (Nat × JSVal)).2.2
        = Spoor.resetUpdatesFrom 0 (Spoor.blocksAsc st c) := rfl
    rw [hlog] at hu
    have hfind : ∃ w, (Spoor.resetUpdatesFrom 0 (Spoor.blocksAsc st c)).find?
        (fun u => f.updateFailIds.contains u.1) = some w := by
      have hs : ((Spoor.resetUpdatesFrom 0 (Spoor.blocksAsc st c)).find?
          (fun u => f.updateFailIds.contains u.1)).isSome :=
        List.find?_isSome.mpr ⟨u, hu, hbad⟩
      exact Option.isSome_iff_exists.mp hs
    obtain ⟨w, hw⟩ := hfind
    refine ⟨w.1, ?_, ⟨w.2, ?_⟩, ?_⟩
    · have hp := List.find?_some hw
      simpa using hp
    · rw [hlog]
      exact List.mem_of_find?_eq_some hw
    · show ((match (Spoor.resetUpdatesFrom 0 (Spoor.blocksAsc st c)).find?
          (fun u => f.updateFailIds.contains u.1) with
        | some u => Except.error (Spoor.StoreErr.updateErr u.1)
        | none => Except.ok ())
        , _, _).1 = _
      rw [hw]

/-- Witness for C6: a failing listing query yields exactly that error with
the store unchanged and no update issued; a failing update on the only
block's `_id` surfaces as that update's error. -/
theorem Spoor.resetCourseTrackingIds_error_prop_witness :
    Spoor.resetCourseTrackingIds [⟨2, "block", 7, JSVal.num 5, .undefined⟩]
        ⟨some "db error", []⟩ 7
      = (Except.error (Spoor.StoreErr.findErr "db error"),
         [⟨2, "block", 7, JSVal.num 5, .undefined⟩], [])
    ∧ (∃ i, (Spoor.Faults.updateFailIds ⟨none, [2]⟩).contains i
        ∧ (∃ v, (i, v) ∈ (Spoor.resetCourseTrackingIds
            [⟨2, "block", 7, JSVal.num 5, .undefined⟩] ⟨none, [2]⟩ 7).2.2)
        ∧ (Spoor.resetCourseTrackingIds
            [⟨2, "block", 7, JSVal.num 5, .undefined⟩] ⟨none, [2]⟩ 7).1
            = Except.error (Spoor.StoreErr.updateErr i)) := by
  have hlog : (Spoor.resetCourseTrackingIds
      [⟨2, "block", 7, JSVal.num 5, .undefined⟩] ⟨none, [2]⟩ 7).2.2
      = [(2, JSVal.num 1)] := by
    show Spoor.resetUpdatesFrom 0
        (Spoor.blocksAsc [⟨2, "block", 7, JSVal.num 5, .undefined⟩] 7) = _
    rw [show Spoor.blocksAsc [⟨2, "block", 7, JSVal.num 5, .undefined⟩] 7
        = [⟨2, "block", 7, JSVal.num 5, .undefined⟩] from
      List.mergeSort_singleton _]
    show [(2, JSVal.num ((0 : ℚ) + 1))] = _
    norm_num
  refine ⟨(Spoor.resetCourseTrackingIds_error_prop
      [⟨2, "block", 7, JSVal.num 5, .undefined⟩] ⟨some "db error", []⟩ 7).1
      "db error" rfl,
    (Spoor.resetCourseTrackingIds_error_prop
      [⟨2, "block", 7, JSVal.num 5, .undefined⟩] ⟨none, [2]⟩ 7).2 rfl
      (2, JSVal.num 1) ?_ (by decide)⟩
  rw [hlog]
  exact List.mem_singleton.mpr rfl

/-- C5: for a payload requiring allocation, `insertTrackingId` writes
(current course maximum `_trackingId`) + 1: `1` when the course has no
documents, `q + 1` when `q` is the course maximum (so `10 ↦ 11` and
`0 ↦ 1`), and `1` when every stored value is absent (`null`/`undefined`). -/
theorem Spoor.insertTrackingId_max_plus_one
    (st : Store) (data : BlockData)
    (hty : data._type = "block") (hni : data._trackingId.isInteger = false) :
    (Spoor.courseDocs st data._courseId = [] →
      Spoor.insertTrackingId st data
        = ({ data with _trackingId := JSVal.num 1 }, true))
    ∧ (∀ q : ℚ,
        JSVal.num q ∈ (Spoor.courseDocs st data._courseId).map (·._trackingId) →
        (∀ v ∈ (Spoor.courseDocs st data._courseId).map (·._trackingId),
          JSVal.le v (JSVal.num q)) →
        Spoor.insertTrackingId st data
          = ({ data with _trackingId := JSVal.num (q + 1) }, true))
    ∧ ((∀ v ∈ (Spoor.courseDocs st data._courseId).map (·._trackingId),
          v = JSVal.null ∨ v = JSVal.undefined) →
        Spoor.insertTrackingId st data
          = ({ data with _trackingId := JSVal.num 1 }, true)) := by
  have hbr : Spoor.insertTrackingId st data
      = ({ data with _trackingId := Spoor.allocValue st data._courseId }, true) := by
    simp [Spoor.insertTrackingId, hty, hni]
  refine ⟨fun h => ?_, fun q hmem hmax => ?_, fun h => ?_⟩
  · rw [hbr, Spoor.allocValue_of_empty st data._courseId h]
  · rw [hbr, Spoor.allocValue_of_max st data._courseId q hmem hmax]
  · rw [hbr, Spoor.allocValue_of_nullish st data._courseId h]

/-- Witness for C5: against a store whose course maximum is `10` the fresh
block gets `10 + 1`; against a store with no document of the course it
gets `1`. -/
theorem Spoor.insertTrackingId_max_plus_one_witness :
    (BlockData._type ⟨"block", 7, JSVal.undefined⟩ = "block"
      ∧ JSVal.isInteger (BlockData._trackingId ⟨"block", 7, JSVal.undefined⟩) = false)
    ∧ Spoor.insertTrackingId [⟨1, "block", 7, JSVal.num 10, .undefined⟩]
        ⟨"block", 7, JSVal.undefined⟩ = (⟨"block", 7, JSVal.num (10 + 1)⟩, true)
    ∧ Spoor.insertTrackingId [⟨1, "block", 7, JSVal.num 10, .undefined⟩]
        ⟨"block", 9, JSVal.undefined⟩ = (⟨"block", 9, JSVal.num 1⟩, true) :=
  ⟨⟨rfl, rfl⟩,
    (Spoor.insertTrackingId_max_plus_one
        [⟨1, "block", 7, JSVal.num 10, .undefined⟩]
        ⟨"block", 7, JSVal.undefined⟩ rfl rfl).2.1 10 (by decide) (by decide),
    (Spoor.insertTrackingId_max_plus_one
        [⟨1, "block", 7, JSVal.num 10, .undefined⟩]
        ⟨"block", 9, JSVal.undefined⟩ rfl rfl).1 (by decide)⟩

/-! ## Claim C10 (implicit): the max query does not filter by type -/

/-- C10: the limit-1 descending query filters only by `_courseId`, so a
non-`block` content item of the course that carries the course-wide maximal
numeric `_trackingId` `q` determines the allocation: the fresh block gets
`q + 1`, not (blocks-only maximum) + 1. -/
theorem Spoor.insertTrackingId_course_wide_max
    (st : Store) (data : BlockData) (d : Doc) (q : ℚ)
    (hty : data._type = "block") (hni : data._trackingId.isInteger = false)
    (hd : d ∈ st) (hc : d._courseId = data._courseId) (hnb : d._type ≠ "block")
    (hdq : d._trackingId = JSVal.num q)
    (hmax : ∀ v ∈ (Spoor.courseDocs st data._courseId).map (·._trackingId),
      JSVal.le v (JSVal.num q)) :
    Spoor.insertTrackingId st data
      = ({ data with _trackingId := JSVal.num (q + 1) }, true) := by
  have hbr : Spoor.insertTrackingId st data
      = ({ data with _trackingId := Spoor.allocValue st data._courseId }, true) := by
    simp [Spoor.insertTrackingId, hty, hni]
  have hdc : d ∈ Spoor.courseDocs st data._courseId := by
    simp [Spoor.courseDocs, List.mem_filter, hd, hc]
  have hmem : JSVal.num q ∈ (Spoor.courseDocs st data._courseId).map (·._trackingId) := by
    rw [← hdq]
    exact List.mem_map_of_mem (·._trackingId) hdc
  rw [hbr, Spoor.allocValue_of_max st data._courseId q hmem hmax]

/-- Witness for C10: a `component` (non-trackable) document carries the
course maximum `10` while the only block carries `3`; the fresh block is
allocated `10 + 1`, not `4`. -/
theorem Spoor.insertTrackingId_course_wide_max_witness :
    (Doc._type ⟨1, "component", 7, JSVal.num 10, .undefined⟩ ≠ "block"
      ∧ Doc._trackingId ⟨1, "component", 7, JSVal.num 10, .undefined⟩ = JSVal.num 10)
    ∧ Spoor.insertTrackingId
        [⟨1, "component", 7, JSVal.num 10, .undefined⟩,
         ⟨2, "block", 7, JSVal.num 3, .undefined⟩]
        ⟨"block", 7, JSVal.undefined⟩ = (⟨"block", 7, JSVal.num (10 + 1)⟩, true) :=
  ⟨⟨by decide, rfl⟩,
    Spoor.insertTrackingId_course_wide_max
      [⟨1, "component", 7, JSVal.num 10, .undefined⟩,
       ⟨2, "block", 7, JSVal.num 3, .undefined⟩]
      ⟨"block", 7, JSVal.undefined⟩
      ⟨1, "component", 7, JSVal.num 10, .undefined⟩ 10
      rfl rfl (by decide) rfl (by decide) rfl (by decide)⟩

/-! ## Legacy atomic-counter facts -/

theorem JSVal.le_inc : ∀ v : JSVal, JSVal.le v v.inc := by
  intro v
  cases v <;> simp [JSVal.le, JSVal.inc, JSVal.rank]

/-- Mapping a `_id`-preserving transformation over the store rewrites the
counter read through the transformation. -/
theorem Legacy.counterVal_map (st : Store) (c : Nat) (g : Doc → Doc)
    (hid : ∀ d, (g d)._id = d._id) :
    Legacy.counterVal (st.map g) c
      = match st.find? (fun d => d._id == c) with
        | some d => (g d)._latestTrackingId
        | none => .undefined := by
  unfold Legacy.counterVal
  rw [List.find?_map]
  have hp : ((fun d : Doc => d._id == c) ∘ g) = (fun d : Doc => d._id == c) := by
    funext d
    simp [Function.comp, hid d]
  rw [hp]
  cases hf : st.find? (fun d => d._id == c) <;> simp [hf]

theorem Legacy.counterVal_le_map (st : Store) (c : Nat) (g : Doc → Doc)
    (hid : ∀ d, (g d)._id = d._id)
    (hle : ∀ d, JSVal.le d._latestTrackingId (g d)._latestTrackingId) :
    JSVal.le (Legacy.counterVal st c) (Legacy.counterVal (st.map g) c) := by
  rw [Legacy.counterVal_map st c g hid]
  unfold Legacy.counterVal
  cases hf : st.find? (fun d => d._id == c) with
  | none => exact JSVal.leRefl _
  | some d => exact hle d

theorem Legacy.insert_counter_mono (st : Store) (data : Doc) (c : Nat) :
    JSVal.le (Legacy.counterVal st c)
      (Legacy.counterVal (Legacy.insertTrackingId st data).1 c) := by
  unfold Legacy.insertTrackingId
  by_cases hg : (data._type != "block" || data._trackingId.gtNegOne) = true
  · rw [if_pos hg]
    exact JSVal.leRefl _
  · rw [if_neg hg]
    show JSVal.le _ (Legacy.counterVal ((Legacy.incCounter st data._courseId).1) c)
    unfold Legacy.incCounter
    refine Legacy.counterVal_le_map st c _ (fun d => ?_) (fun d => ?_)
    · by_cases hd : (d._id == data._courseId) = true
      · rw [if_pos hd]
      · rw [if_neg hd]
    · by_cases hd : (d._id == data._courseId) = true
      · rw [if_pos hd]
        exact JSVal.le_inc _
      · rw [if_neg hd]
        exact JSVal.leRefl _

theorem Legacy.insert_issued_eq (st : Store) (data : Doc) :
    ∀ p ∈ (Legacy.insertTrackingId st data).2.2,
      p.2 = Legacy.counterVal (Legacy.insertTrackingId st data).1 p.1 := by
  intro p hp
  unfold Legacy.insertTrackingId at hp ⊢
  by_cases hg : (data._type != "block" || data._trackingId.gtNegOne) = true
  · rw [if_pos hg] at hp
    simp at hp
  · rw [if_neg hg] at hp ⊢
    have hp' : p = (data._courseId, (Legacy.incCounter st data._courseId).2) := by
      simpa using hp
    rw [hp']
    rfl

/-- The step function of the legacy reset's per-block loop. -/
def Legacy.resetStep (acc : Store × List Doc × List (Nat × JSVal)) (b : Doc) :
    Store × List Doc × List (Nat × JSVal) :=
  let r := Legacy.insertTrackingId acc.1 b
  (r.1, acc.2.1 ++ [r.2.1], acc.2.2 ++ r.2.2)

theorem Legacy.resetTrackingIds_as_fold (st : Store) (c : Nat) :
    Legacy.resetTrackingIds st c
      = ((st.map fun d =>
            if d._id == c then { d with _trackingId := JSVal.num (-1) } else d).filter
          (fun d => d._type == "block" && d._courseId == c)).foldl
          Legacy.resetStep
          ((st.map fun d =>
            if d._id == c then { d with _trackingId := JSVal.num (-1) } else d),
           [], []) := rfl

theorem Legacy.fold_counter_mono (blocks : List Doc)
    (acc : Store × List Doc × List (Nat × JSVal)) (c : Nat) :
    JSVal.le (Legacy.counterVal acc.1 c)
      (Legacy.counterVal (blocks.foldl Legacy.resetStep acc).1 c) := by
  induction blocks generalizing acc with
  | nil => exact JSVal.leRefl _
  | cons b bs ih =>
    rw [List.foldl_cons]
    exact JSVal.leTrans _ _ _
      (Legacy.insert_counter_mono acc.1 b c) (ih (Legacy.resetStep acc b))

theorem Legacy.fold_issued_le (blocks : List Doc)
    (acc : Store × List Doc × List (Nat × JSVal))
    (hacc : ∀ p ∈ acc.2.2, JSVal.le p.2 (Legacy.counterVal acc.1 p.1)) :
    ∀ p ∈ (blocks.foldl Legacy.resetStep acc).2.2,
      JSVal.le p.2 (Legacy.counterVal (blocks.foldl Legacy.resetStep acc).1 p.1) := by
  induction blocks generalizing acc with
  | nil => exact hacc
  | cons b bs ih =>
    rw [List.foldl_cons]
    refine ih (Legacy.resetStep acc b) (fun p hp => ?_)
    have hsplit : p ∈ acc.2.2 ∨ p ∈ (Legacy.insertTrackingId acc.1 b).2.2 := by
      simpa [Legacy.resetStep] using hp
    rcases hsplit with hold | hnew
    · exact JSVal.leTrans _ _ _ (hacc p hold)
        (Legacy.insert_counter_mono acc.1 b p.1)
    · rw [Legacy.insert_issued_eq acc.1 b p hnew]
      exact JSVal.leRefl _

theorem Legacy.execOp_counter_mono (st : Store) (op : Legacy.Op) (c : Nat) :
    JSVal.le (Legacy.counterVal st c) (Legacy.counterVal (Legacy.execOp st op).1 c) := by
  cases op with
  | insert data => exact Legacy.insert_counter_mono st data c
  | reset c' =>
    show JSVal.le _ (Legacy.counterVal (Legacy.resetTrackingIds st c').1 c)
    rw [Legacy.resetTrackingIds_as_fold]
    refine JSVal.leTrans _ _ _ ?_ (Legacy.fold_counter_mono _ _ c)
    refine Legacy.counterVal_le_map st c _ (fun d => ?_) (fun d => ?_)
    · by_cases hd : (d._id == c') = true
      · rw [if_pos hd]
      · rw [if_neg hd]
    · by_cases hd : (d._id == c') = true
      · rw [if_pos hd]
        exact JSVal.leRefl _
      · rw [if_neg hd]
        exact JSVal.leRefl _

theorem Legacy.execOp_issued_le (st : Store) (op : Legacy.Op) :
    ∀ p ∈ (Legacy.execOp st op).2,
      JSVal.le p.2 (Legacy.counterVal (Legacy.execOp st op).1 p.1) := by
  cases op with
  | insert data =>
    intro p hp
    rw [Legacy.insert_issued_eq st data p hp]
    exact JSVal.leRefl _
  | reset c' =>
    intro p hp
    show JSVal.le p.2 (Legacy.counterVal (Legacy.resetTrackingIds st c').1 p.1)
    have hp' : p ∈ (Legacy.resetTrackingIds st c').2.2 := hp
    rw [Legacy.resetTrackingIds_as_fold] at hp' ⊢
    exact Legacy.fold_issued_le _ _ (fun q hq => by simp at hq) p hp'

theorem Legacy.trace_fold (ops : List Legacy.Op)
    (acc : Store × List (Nat × JSVal)) (c : Nat)
    (hacc : ∀ p ∈ acc.2, JSVal.le p.2 (Legacy.counterVal acc.1 p.1)) :
    JSVal.le (Legacy.counterVal acc.1 c)
      (Legacy.counterVal (ops.foldl
        (fun a op => let r := Legacy.execOp a.1 op; (r.1, a.2 ++ r.2)) acc).1 c)
    ∧ ∀ p ∈ (ops.foldl
        (fun a op => let r := Legacy.execOp a.1 op; (r.1, a.2 ++ r.2)) acc).2,
        JSVal.le p.2 (Legacy.counterVal (ops.foldl
          (fun a op => let r := Legacy.execOp a.1 op; (r.1, a.2 ++ r.2)) acc).1 p.1) := by
  induction ops generalizing acc with
  | nil => exact ⟨JSVal.leRefl _, hacc⟩
  | cons op rest ih =>
    rw [List.foldl_cons]
    have hstep : ∀ p ∈ (Legacy.execOp acc.1 op).1, True := fun _ _ => trivial
    have hacc' : ∀ p ∈ ((Legacy.execOp acc.1 op).1, acc.2 ++ (Legacy.execOp acc.1 op).2).2,
        JSVal.le p.2 (Legacy.counterVal
          ((Legacy.execOp acc.1 op).1, acc.2 ++ (Legacy.execOp acc.1 op).2).1 p.1) := by
      intro p hp
      rcases List.mem_append.mp hp with hold | hnew
      · exact JSVal.leTrans _ _ _ (hacc p hold)
          (Legacy.execOp_counter_mono acc.1 op p.1)
      · exact Legacy.execOp_issued_le acc.1 op p hnew
    have := ih ((Legacy.execOp acc.1 op).1, acc.2 ++ (Legacy.execOp acc.1 op).2) hacc'
    exact ⟨JSVal.leTrans _ _ _ (Legacy.execOp_counter_mono acc.1 op c) this.1, this.2⟩

/-! ## Claim C2: allocation is idempotent on valid non-negative integer ids -/

/-- C2: for a trackable block whose `_trackingId` is already a non-negative
integer — including 0 — `insertTrackingId` is a no-op: the payload is
returned unchanged and no store query is issued. -/
theorem Spoor.insertTrackingId_noop_of_validId
    (st : Store) (data : BlockData) (q : ℚ)
    (hty : data._type = "block") (hq : data._trackingId = JSVal.num q)
    (hden : q.den = 1) (hnn : 0 ≤ q) :
    Spoor.insertTrackingId st data = (data, false) := by
  simp [Spoor.insertTrackingId, hq, JSVal.isInteger, hden]

/-- Witness for C2: a block with `_trackingId = 0` is left untouched even in
a store where allocation would have produced `6`. -/
theorem Spoor.insertTrackingId_noop_of_validId_witness :
    (BlockData._type ⟨"block", 7, JSVal.num 0⟩ = "block"
      ∧ BlockData._trackingId ⟨"block", 7, JSVal.num 0⟩ = JSVal.num 0
      ∧ (0 : ℚ).den = 1 ∧ (0 : ℚ) ≤ 0)
    ∧ Spoor.insertTrackingId [⟨1, "block", 7, JSVal.num 5, .undefined⟩]
        ⟨"block", 7, JSVal.num 0⟩ = (⟨"block", 7, JSVal.num 0⟩, false) :=
  ⟨⟨rfl, rfl, by decide, by norm_num⟩,
    Spoor.insertTrackingId_noop_of_validId _ _ 0 rfl rfl (by decide) (by norm_num)⟩

/-! ## Claim C7: type gating -/

/-- C7: for a payload whose `_type` is not `"block"`, `insertTrackingId` is a
no-op whatever its `_trackingId`: the payload is unchanged and no store
interaction occurs. -/
theorem Spoor.insertTrackingId_type_gate
    (st : Store) (data : BlockData) (hty : data._type ≠ "block") :
    Spoor.insertTrackingId st data = (data, false) := by
  simp [Spoor.insertTrackingId, hty]

/-- Witness for C7: a `component` payload with an invalid `_trackingId` is
left untouched. -/
theorem Spoor.insertTrackingId_type_gate_witness :
    (BlockData._type ⟨"component", 7, JSVal.null⟩ ≠ "block")
    ∧ Spoor.insertTrackingId [⟨1, "block", 7, JSVal.num 5, .undefined⟩]
        ⟨"component", 7, JSVal.null⟩ = (⟨"component", 7, JSVal.null⟩, false) :=
  ⟨by decide, Spoor.insertTrackingId_type_gate _ _ (by decide)⟩

/-! ## Claim C3 (corrected): which existing values trigger reallocation

The claim also lists negative integers such as `-1` as triggering fresh
allocation, but the code's test is `Number.isInteger(data._trackingId)`, and
`Number.isInteger(-1)` is true: a negative integer is preserved unchanged and
no allocation happens. -/

/-- Counterexample to C3 as stated: a trackable block with `_trackingId = -1`
is returned unchanged and without any store read — the field is *not*
overwritten by a fresh allocation (which here would have yielded `6`). -/
theorem Spoor.insertTrackingId_negOne_preserved_cex :
    Spoor.insertTrackingId [⟨1, "block", 7, JSVal.num 5, .undefined⟩]
        ⟨"block", 7, JSVal.num (-1)⟩ = (⟨"block", 7, JSVal.num (-1)⟩, false)
    ∧ BlockData._trackingId ⟨"block", 7, JSVal.num (-1)⟩ = JSVal.num (-1) := by
  constructor
  · simp [Spoor.insertTrackingId, JSVal.isInteger]
  · rfl

/-- C3 amended: for a trackable block, a `null`, `undefined`, fractional or
string (non-numeric) `_trackingId` is treated as not yet assigned and is
overwritten by the freshly allocated scan-and-increment value, with a store
read; whereas *any* integer value — negative ones such as `-1` included —
is treated as already assigned and preserved with no store read. -/
theorem Spoor.insertTrackingId_assignment_rule
    (st : Store) (data : BlockData) (hty : data._type = "block") :
    ((data._trackingId = JSVal.null ∨ data._trackingId = JSVal.undefined
        ∨ (∃ q : ℚ, data._trackingId = JSVal.num q ∧ q.den ≠ 1)
        ∨ (∃ s : String, data._trackingId = JSVal.str s)) →
      Spoor.insertTrackingId st data
        = ({ data with _trackingId := Spoor.allocValue st data._courseId }, true))
    ∧ (∀ q : ℚ, data._trackingId = JSVal.num q → q.den = 1 →
        Spoor.insertTrackingId st data = (data, false)) := by
  constructor
  · rintro (h | h | ⟨q, h, hden⟩ | ⟨s, h⟩)
    · simp [Spoor.insertTrackingId, h, JSVal.isInteger, hty]
    · simp [Spoor.insertTrackingId, h, JSVal.isInteger, hty]
    · simp [Spoor.insertTrackingId, h, JSVal.isInteger, hty, hden]
    · simp [Spoor.insertTrackingId, h, JSVal.isInteger, hty]
  · intro q hq hden
    simp [Spoor.insertTrackingId, hq, JSVal.isInteger, hden]

/-- Witness for amended C3: a fractional `_trackingId = 3/2` is overwritten
by the allocated value (`6` against a store whose maximum is `5`), and the
integer `-1` is preserved. -/
theorem Spoor.insertTrackingId_assignment_rule_witness :
    (BlockData._type ⟨"block", 7, JSVal.num (3/2)⟩ = "block")
    ∧ Spoor.insertTrackingId [⟨1, "block", 7, JSVal.num 5, .undefined⟩]
        ⟨"block", 7, JSVal.num (3/2)⟩
        = ({ _type := "block", _courseId := 7,
             _trackingId := Spoor.allocValue
               [⟨1, "block", 7, JSVal.num 5, .undefined⟩] 7 }, true)
    ∧ Spoor.insertTrackingId [⟨1, "block", 7, JSVal.num 5, .undefined⟩]
        ⟨"block", 7, JSVal.num (-1)⟩ = (⟨"block", 7, JSVal.num (-1)⟩, false) :=
  ⟨rfl,
    (Spoor.insertTrackingId_assignment_rule _ _ rfl).1
      (Or.inr (Or.inr (Or.inl ⟨3/2, rfl,
        by have h : (3/2 : ℚ).den = 2 := by norm_num
           omega⟩))),
    (Spoor.insertTrackingId_assignment_rule _ _ rfl).2 (-1) rfl (by decide)⟩

/-! ## Claim C9: the atomic counter is monotone and bounds every issued id -/

/-- C9: across any run of the legacy module's operations, the course's
`_latestTrackingId` counter never decreases — both over the whole run and
over each single operation — and at the end of the run it bounds from above
every tracking id the module issued for each course. -/
theorem Legacy.latestTrackingId_monotone
    (st : Store) (ops : List Legacy.Op) (c : Nat) :
    JSVal.le (Legacy.counterVal st c)
      (Legacy.counterVal (Legacy.execTrace st ops).1 c)
    ∧ (∀ op, JSVal.le (Legacy.counterVal st c)
        (Legacy.counterVal (Legacy.execOp st op).1 c))
    ∧ ∀ p ∈ (Legacy.execTrace st ops).2,
        JSVal.le p.2 (Legacy.counterVal (Legacy.execTrace st ops).1 p.1) := by
  have h := Legacy.trace_fold ops (st, []) c (fun p hp => by simp at hp)
  exact ⟨h.1, fun op => Legacy.execOp_counter_mono st op c, h.2⟩

/-- Witness for C9: one pre-insert hook call on a fresh block of course `1`
creates the counter at `1`, which bounds the single issued id `1`. -/
theorem Legacy.latestTrackingId_monotone_witness :
    JSVal.le
      (Legacy.counterVal [⟨1, "course", 1, JSVal.undefined, JSVal.undefined⟩] 1)
      (Legacy.counterVal (Legacy.execTrace
        [⟨1, "course", 1, JSVal.undefined, JSVal.undefined⟩]
        [Legacy.Op.insert ⟨5, "block", 1, JSVal.undefined, JSVal.undefined⟩]).1 1)
    ∧ JSVal.le (JSVal.num 1)
        (Legacy.counterVal (Legacy.execTrace
          [⟨1, "course", 1, JSVal.undefined, JSVal.undefined⟩]
          [Legacy.Op.insert ⟨5, "block", 1, JSVal.undefined, JSVal.undefined⟩]).1 1) :=
  ⟨(Legacy.latestTrackingId_monotone
      [⟨1, "course", 1, JSVal.undefined, JSVal.undefined⟩]
      [Legacy.Op.insert ⟨5, "block", 1, JSVal.undefined, JSVal.undefined⟩] 1).1,
    (Legacy.latestTrackingId_monotone
      [⟨1, "course", 1, JSVal.undefined, JSVal.undefined⟩]
      [Legacy.Op.insert ⟨5, "block", 1, JSVal.undefined, JSVal.undefined⟩] 1).2.2
      (1, JSVal.num 1) (by decide)⟩

/-! ## Claim C4 (code bug): the legacy sentinel pass misses the blocks -/

/-- C4: the legacy reset's first update targets the selector
`{ _id: courseId }` — the *course document* — so no block ever receives the
sentinel `-1`, and the per-block loop then skips every block whose
`_trackingId > -1` is true.  Concretely: for course `1` with one block of
`_trackingId = 5`, the run sets the course document's `_trackingId` to `-1`,
leaves the block at `5` in the store and in the returned in-memory objects
(instead of sentinel `-1` followed by the fresh dense id `1`), and performs
no allocation at all. -/
theorem Legacy.resetTrackingIds_slip :
    Legacy.resetTrackingIds
        [⟨1, "course", 1, JSVal.undefined, JSVal.undefined⟩,
         ⟨2, "block", 1, JSVal.num 5, JSVal.undefined⟩] 1
      = ([⟨1, "course", 1, JSVal.num (-1), JSVal.undefined⟩,
          ⟨2, "block", 1, JSVal.num 5, JSVal.undefined⟩],
         [⟨2, "block", 1, JSVal.num 5, JSVal.undefined⟩], []) := by
  decide
